import Mathlib

/-!
Shallow embedding of the voice-activity-gated audio capture pipeline of
`Managers/Mic_Manager_Streaming.py` (class `StreamingMicManager`), together
with proofs about its segmentation, calibration and buffering behaviour.

Modelling conventions:
* Python floats are modelled as rationals (`ℚ`); the decimal literals of the
  source (`0.4`, `32.767`, `0.1`, ...) are written as the exact fractions
  `2/5`, `32767/1000`, `1/10`, ....
* An audio chunk is the list of its int16 samples.
* `collections.deque(maxlen=n)` is a bounded FIFO that evicts from the left.
* `queue.Queue()` (no argument) is an unbounded queue: `maxsize = 0` in
  Python means "infinite", and `put(x, block=False)` then never raises
  `queue.Full`.
* The two `datetime.now()` / `time.time()` clocks are passed in explicitly as
  rational timestamps.
-/

namespace MicStreaming

/-- An audio chunk: one block of int16 samples, as produced by the stream
callback (`(indata * 32767).astype(np.int16)`). -/
abbrev Chunk := List ℤ

/-- `np.abs(audio_chunk).mean()` over an int16 chunk. -/
def npAbsMean (c : Chunk) : ℚ :=
  ((c.map Int.natAbs).sum : ℚ) / (c.length : ℚ)

/-- `amplitude_scaled = np.abs(audio_chunk).mean() / 32.767` — the
loudness value fed to the VAD logic (`32.767 = 32767/1000`). -/
def amplitude_scaled (c : Chunk) : ℚ :=
  npAbsMean c / (32767 / 1000)

/-- The last `n` elements of a list. -/
def takeLast (n : ℕ) (l : List α) : List α := l.drop (l.length - n)

/-- Python `collections.deque(maxlen=...)`: a bounded FIFO that evicts its
oldest (leftmost) element when a `push` overflows `maxlen`. -/
structure Deque (α : Type) where
  maxlen : ℕ
  data : List α
deriving Repr, DecidableEq

/-- `deque.append(x)`: push on the right, keeping only the newest `maxlen`
elements (for `maxlen = 0` the deque stays empty, as in Python). -/
def Deque.push (d : Deque α) (x : α) : Deque α :=
  { d with data := takeLast d.maxlen (d.data ++ [x]) }

/-- Python `queue.Queue`: `maxsize = 0` means unbounded. -/
structure PyQueue (α : Type) where
  maxsize : ℕ
  items : List α
deriving Repr, DecidableEq

/-- `self._audio_queue = queue.Queue()` in `__init__`: constructed with no
`maxsize` argument, hence unbounded (`maxsize = 0`). -/
def audio_queue_init : PyQueue Chunk := { maxsize := 0, items := [] }

/-- `put(x, block=False)` raises `queue.Full` exactly when the queue is
bounded and currently holds `maxsize` or more items. -/
def PyQueue.isFull (q : PyQueue α) : Bool :=
  decide (q.maxsize ≠ 0 ∧ q.maxsize ≤ q.items.length)

/-- The enqueue logic of `audio_callback` in `_audio_stream_worker`:
`try: put(x, block=False); except queue.Full: get_nowait(); put(x, block=False)`
(on `queue.Empty` during the retry, the block is silently dropped). -/
def audio_callback_put (q : PyQueue Chunk) (x : Chunk) : PyQueue Chunk :=
  if q.isFull then
    match q.items with
    | [] => q
    | _ :: rest => { q with items := rest ++ [x] }
  else
    { q with items := q.items ++ [x] }

/-- Reason string attached to a segment end: `"max length"` when
`total_duration >= max_recording_duration`, else `"silence"`. -/
inductive EndReason where
  | maxLength
  | silence
deriving Repr, DecidableEq

/-- `np.concatenate` over the captured chunk list: the sample payload that
`on_speech_end` actually receives. -/
def np_concatenate (bufs : List Chunk) : Chunk := bufs.flatten

/-- Speech callbacks observable from one processing iteration.  A
`speechEnd` records the captured chunk list (the callback receives
`np_concatenate buffer` together with `duration`). -/
inductive VadEvent where
  | speechStart (amplitude : ℚ)
  | speechEnd (buffer : List Chunk) (duration : ℚ) (reason : EndReason)
deriving Repr, DecidableEq

/-- The state read and written by one iteration of
`_audio_processing_worker`: the worker's locals (`speech_active`,
`speech_start_time`, `last_speech_time`, `audio_buffer`) and the manager
fields consulted by the VAD logic.  The two time fields are `Option`
because Python initialises them to `None`; they are only read while
`speech_active` is true, where the code guarantees they are set. -/
structure ProcState where
  speech_active : Bool
  speech_start_time : Option ℚ
  last_speech_time : Option ℚ
  audio_buffer : List Chunk
  pre_recording_buffer : Deque Chunk
  vad_threshold : ℚ
  min_speech_duration : ℚ
  max_silence_duration : ℚ
  max_recording_duration : ℚ
deriving Repr, DecidableEq

/-- One iteration of the loop body of `_audio_processing_worker` for a
dequeued `audio_chunk` at `current_time`, with `enable_vad = True`.
Returns the updated state and the speech callbacks fired, in order.

The amplitude-update and audio-chunk callbacks, the append to
`_amplitude_history`, and the periodic `auto_recalibrate_if_needed` call
(modelled separately below) do not touch the segmenter state and are not
recorded here. -/
def audio_processing_step (s : ProcState) (audio_chunk : Chunk)
    (current_time : ℚ) : ProcState × List VadEvent :=
  let amp := amplitude_scaled audio_chunk
  -- "Always add to pre-recording buffer"
  let pre := s.pre_recording_buffer.push audio_chunk
  let start_threshold := s.vad_threshold
  let continue_threshold := s.vad_threshold * (2 / 5)   -- 0.4
  let is_speech : Bool :=
    if s.speech_active then decide (amp > continue_threshold)
    else decide (amp > start_threshold)
  if is_speech then
    if s.speech_active = false then
      -- Speech just started - include pre-recording buffer
      ({ s with pre_recording_buffer := pre,
                speech_active := true,
                speech_start_time := some current_time,
                audio_buffer := pre.data ++ [audio_chunk],
                last_speech_time := some current_time },
       [VadEvent.speechStart amp])
    else
      -- Continue speech
      ({ s with pre_recording_buffer := pre,
                audio_buffer := s.audio_buffer ++ [audio_chunk],
                last_speech_time := some current_time },
       [])
  else if s.speech_active then
    -- In silence during speech - add chunk but check duration
    let audio_buffer := s.audio_buffer ++ [audio_chunk]
    let silence_duration := current_time - (s.last_speech_time).getD 0
    let total_duration := current_time - (s.speech_start_time).getD 0
    if silence_duration ≥ s.max_silence_duration ∨
       total_duration ≥ s.max_recording_duration then
      let speech_duration := current_time - (s.speech_start_time).getD 0
      let events :=
        if speech_duration ≥ s.min_speech_duration then
          [VadEvent.speechEnd audio_buffer speech_duration
            (if total_duration ≥ s.max_recording_duration then
              EndReason.maxLength else EndReason.silence)]
        else []
      ({ s with pre_recording_buffer := pre,
                speech_active := false,
                audio_buffer := [] },
       events)
    else
      ({ s with pre_recording_buffer := pre, audio_buffer := audio_buffer }, [])
  else
    ({ s with pre_recording_buffer := pre }, [])

/-- Iterate `audio_processing_step` over a list of timestamped chunks,
concatenating the emitted events. -/
def audio_processing_run (s : ProcState) :
    List (Chunk × ℚ) → ProcState × List VadEvent
  | [] => (s, [])
  | (c, t) :: rest =>
    let step := audio_processing_step s c t
    let next := audio_processing_run step.1 rest
    (next.1, step.2 ++ next.2)

/-- Follow a run from an `Active` state up to the first step at which the
segmenter returns to `Idle`; yields that step's events, or `none` if the
segment never ends within the given input. -/
def first_deactivation_events (s : ProcState) :
    List (Chunk × ℚ) → Option (List VadEvent)
  | [] => none
  | (c, t) :: rest =>
    let step := audio_processing_step s c t
    if step.1.speech_active then first_deactivation_events step.1 rest
    else some step.2

/-- `np.mean` over a list of collected amplitudes. -/
def npMean (l : List ℚ) : ℚ := l.sum / (l.length : ℚ)

/-- Insert a value into an ascending-sorted list. -/
def insertAsc (x : ℚ) : List ℚ → List ℚ
  | [] => [x]
  | y :: ys => if x ≤ y then x :: y :: ys else y :: insertAsc x ys

/-- Ascending sort (as `np.percentile` performs internally). -/
def sortAsc (l : List ℚ) : List ℚ := l.foldr insertAsc []

/-- `np.percentile(l, 25)` with numpy's default linear interpolation: with
`n` data points sorted ascending as `a`, the virtual index is
`h = (n-1)/4` and the result is `a[⌊h⌋] + (h - ⌊h⌋) * (a[⌊h⌋+1] - a[⌊h⌋])`.
(Only evaluated for nonempty data; the caller guards `n ≥ 50`.) -/
def npPercentile25 (l : List ℚ) : ℚ :=
  let a := sortAsc l
  let h : ℚ := ((l.length : ℚ) - 1) / 4
  let i : ℕ := h.floor.toNat
  let lower := a.getD i 0
  let upper := a.getD (i + 1) lower
  lower + (h - (i : ℚ)) * (upper - lower)

/-- The calibration-relevant manager fields: `noise_floor`,
`vad_threshold` and `_last_calibration` (a `datetime` timestamp, `None`
before any calibration). -/
structure CalibState where
  noise_floor : ℚ
  vad_threshold : ℚ
  last_calibration : Option ℚ
deriving Repr, DecidableEq

/-- The state update of `calibrate_noise_floor`, given the amplitudes
collected during the calibration pass and the current `datetime.now()`:
on a nonempty sample list set `noise_floor = np.mean(amplitudes)` and
`vad_threshold = max(min(noise_floor * 5.0, 150.0), 15.0)` and stamp
`last_calibration`; on an empty list (`if amplitudes:` false) only log —
the prior state is retained. -/
def calibrate_noise_floor (s : CalibState) (amplitudes : List ℚ)
    (now : ℚ) : CalibState :=
  if amplitudes ≠ [] then
    let nf := npMean amplitudes
    { noise_floor := nf,
      vad_threshold := max (min (nf * 5) 150) 15,
      last_calibration := some now }
  else
    s

/-- The trigger condition of `auto_recalibrate_if_needed`:
`self._last_calibration is None or datetime.now() - self._last_calibration
> self._calibration_interval`. -/
def recalibration_due (s : CalibState) (now calibration_interval : ℚ) : Bool :=
  match s.last_calibration with
  | none => true
  | some t => decide (now - t > calibration_interval)

/-- `auto_recalibrate_if_needed`: when recalibration is due and at least 50
amplitude-history samples exist, recompute `noise_floor` as
`np.percentile(list(self._amplitude_history)[-50:], 25)` — the 25th
percentile of the newest 50 history entries — and derive the clamped
threshold; otherwise leave the state unchanged. -/
def auto_recalibrate_if_needed (s : CalibState) (history : List ℚ)
    (now calibration_interval : ℚ) : CalibState :=
  if recalibration_due s now calibration_interval then
    if history.length ≥ 50 then
      let recent_amplitudes := takeLast 50 history
      let nf := npPercentile25 recent_amplitudes
      { noise_floor := nf,
        vad_threshold := max (min (nf * 5) 150) 15,
        last_calibration := some now }
    else s
  else s

/-- Python `int()` applied to a nonnegative-or-negative float: truncation
toward zero. -/
def int_trunc (q : ℚ) : ℤ := if 0 ≤ q then ⌊q⌋ else -⌊-q⌋

/-- The manager fields read and written by `set_pre_recording_duration`. -/
structure PreRollConfig where
  pre_recording_duration : ℚ
  sample_rate : ℕ
  chunk_size : ℕ
  pre_recording_buffer : Deque Chunk
deriving Repr, DecidableEq

/-- `set_pre_recording_duration(duration_seconds)`: clamp the request to
`max(0.1, min(duration_seconds, 5.0))`, recompute the capacity as
`int(duration * sample_rate / chunk_size)` and rebuild the deque (empty)
with the new `maxlen`. -/
def set_pre_recording_duration (s : PreRollConfig)
    (duration_seconds : ℚ) : PreRollConfig :=
  let d := max (1 / 10) (min duration_seconds 5)
  let new_buffer_size : ℕ :=
    (int_trunc (d * (s.sample_rate : ℚ) / (s.chunk_size : ℚ))).toNat
  { s with pre_recording_duration := d,
           pre_recording_buffer := { maxlen := new_buffer_size, data := [] } }

/-! ### Concrete fixtures used by witnesses and counterexamples -/

/-- A single full-scale sample: `amplitude_scaled chunkLoud = 1000`. -/
def chunkLoud : Chunk := [32767]

/-- A single near-zero sample: `amplitude_scaled chunkQuiet = 1000/32767 ≈ 0.03`. -/
def chunkQuiet : Chunk := [1]

/-- An `Idle` segmenter state with the manager's default parameters
(`vad_threshold` as set by a calibration to 50, default durations, a 0.5 s
pre-roll of 21 blocks currently holding two quiet chunks). -/
def idleState : ProcState :=
  { speech_active := false
    speech_start_time := none
    last_speech_time := none
    audio_buffer := []
    pre_recording_buffer := { maxlen := 21, data := [[1], [2]] }
    vad_threshold := 50
    min_speech_duration := 3 / 10
    max_silence_duration := 1
    max_recording_duration := 8 }

/-- An `Active` segmenter state: the segment started at `t = 0`, was last
voiced at `t = 8.5`, and one loud chunk has been captured so far. -/
def activeState : ProcState :=
  { speech_active := true
    speech_start_time := some 0
    last_speech_time := some (17 / 2)
    audio_buffer := [chunkLoud]
    pre_recording_buffer := { maxlen := 21, data := [chunkLoud] }
    vad_threshold := 50
    min_speech_duration := 3 / 10
    max_silence_duration := 1
    max_recording_duration := 8 }

/-- A synthetic amplitude sequence that rises above the start threshold 50
(`amplitude_scaled [1967] ≈ 60.0`) and then decays strictly monotonically
(≈ 50.05, 40.0, 30.0, 25.0 — all above the continue threshold 20 — and
finally ≈ 10.0, below it), with the last voiced block at `t = 7.8` and the
single sub-threshold block at `t = 8.3`. -/
def decayInputs : List (Chunk × ℚ) :=
  [([1967], 0), ([1640], 2), ([1311], 4), ([984], 6),
   ([820], 39 / 5), ([328], 83 / 10)]

/-- An `Active` state with a configured `min_speech_duration` of 2 s (set
via `set_vad_parameters`): a spike segment that ends before 2 s must be
discarded. -/
def shortSpikeState : ProcState :=
  { speech_active := true
    speech_start_time := some 0
    last_speech_time := some 0
    audio_buffer := [[1], [2], chunkLoud]
    pre_recording_buffer := { maxlen := 21, data := [[1], [2], chunkLoud] }
    vad_threshold := 50
    min_speech_duration := 2
    max_silence_duration := 1
    max_recording_duration := 8 }

/-- A calibration state prior to any calibration (`__init__` defaults:
`noise_floor = 10.0`, `vad_threshold = 50.0`, `_last_calibration = None`). -/
def calibInit : CalibState := { noise_floor := 10, vad_threshold := 50, last_calibration := none }

/-- A full 100-entry amplitude history (the `_amplitude_history` deque at
its `maxlen = 100` capacity): 50 old quiet readings followed by 50 recent
loud readings. -/
def history100 : List ℚ := List.replicate 50 0 ++ List.replicate 50 1

/-- `strictlyDecreasing l` holds when consecutive elements of `l` strictly
decrease (used to state that a synthetic amplitude sequence decays
monotonically). -/
def strictlyDecreasing : List ℚ → Bool
  | a :: b :: rest => decide (a > b) && strictlyDecreasing (b :: rest)
  | _ => true

/-! ### Step-characterisation lemmas for `_audio_processing_worker` -/

/-- From an `Active` state, a chunk above the continue threshold
(`vad_threshold * 0.4`) is appended to the segment and resets the silence
clock; no callback fires. -/
theorem step_active_voiced (s : ProcState) (c : Chunk) (t : ℚ)
    (hA : s.speech_active = true)
    (hV : amplitude_scaled c > s.vad_threshold * (2 / 5)) :
    audio_processing_step s c t =
      ({ s with pre_recording_buffer := s.pre_recording_buffer.push c,
                audio_buffer := s.audio_buffer ++ [c],
                last_speech_time := some t }, []) := by
  simp [audio_processing_step, hA, hV]

/-- From an `Active` state, a chunk at or below the continue threshold that
exceeds neither the silence nor the total-duration bound is still appended;
the segment stays `Active` and no callback fires. -/
theorem step_active_silent (s : ProcState) (c : Chunk) (t : ℚ)
    (hA : s.speech_active = true)
    (hV : ¬ amplitude_scaled c > s.vad_threshold * (2 / 5))
    (hEnd : ¬ (t - (s.last_speech_time).getD 0 ≥ s.max_silence_duration ∨
               t - (s.speech_start_time).getD 0 ≥ s.max_recording_duration)) :
    audio_processing_step s c t =
      ({ s with pre_recording_buffer := s.pre_recording_buffer.push c,
                audio_buffer := s.audio_buffer ++ [c] }, []) := by
  simp [audio_processing_step, hA, hV, hEnd]

/-- From an `Active` state, a chunk at or below the continue threshold that
exceeds the silence bound or the total-duration bound ends the segment: the
state returns to `Idle` with an empty segment buffer, and `on_speech_end`
fires exactly when the segment lasted at least `min_speech_duration`. -/
theorem step_active_end (s : ProcState) (c : Chunk) (t : ℚ)
    (hA : s.speech_active = true)
    (hV : ¬ amplitude_scaled c > s.vad_threshold * (2 / 5))
    (hEnd : t - (s.last_speech_time).getD 0 ≥ s.max_silence_duration ∨
            t - (s.speech_start_time).getD 0 ≥ s.max_recording_duration) :
    audio_processing_step s c t =
      ({ s with pre_recording_buffer := s.pre_recording_buffer.push c,
                speech_active := false,
                audio_buffer := [] },
       if t - (s.speech_start_time).getD 0 ≥ s.min_speech_duration then
         [VadEvent.speechEnd (s.audio_buffer ++ [c])
            (t - (s.speech_start_time).getD 0)
            (if t - (s.speech_start_time).getD 0 ≥ s.max_recording_duration then
               EndReason.maxLength else EndReason.silence)]
       else []) := by
  simp [audio_processing_step, hA, hV, hEnd]

/-- From an `Idle` state, a chunk above the start threshold activates the
segmenter: the segment buffer is seeded with the pre-roll window contents
(after this chunk's unconditional pre-roll append) followed by the chunk
again, and `on_speech_start` fires. -/
theorem step_idle_voiced (s : ProcState) (c : Chunk) (t : ℚ)
    (hI : s.speech_active = false)
    (hAmp : amplitude_scaled c > s.vad_threshold) :
    audio_processing_step s c t =
      ({ s with pre_recording_buffer := s.pre_recording_buffer.push c,
                speech_active := true,
                speech_start_time := some t,
                audio_buffer := (s.pre_recording_buffer.push c).data ++ [c],
                last_speech_time := some t },
       [VadEvent.speechStart (amplitude_scaled c)]) := by
  simp [audio_processing_step, hI, hAmp]

/-- Prefix invariant of an active segment: any `on_speech_end` fired at the
first return to `Idle` delivers a buffer extending the current segment
buffer, so any prefix of the latter is preserved. -/
theorem first_deactivation_events_prefix (P : List Chunk)
    (inputs : List (Chunk × ℚ)) :
    ∀ s : ProcState, s.speech_active = true → P <+: s.audio_buffer →
      ∀ evs, first_deactivation_events s inputs = some evs →
      ∀ B d r, VadEvent.speechEnd B d r ∈ evs → P <+: B := by
  induction inputs with
  | nil =>
    intro s hA hP evs h
    simp [first_deactivation_events] at h
  | cons p rest ih =>
    obtain ⟨c, t⟩ := p
    intro s hA hP evs h B d r hmem
    simp only [first_deactivation_events] at h
    by_cases hV : amplitude_scaled c > s.vad_threshold * (2 / 5)
    · rw [step_active_voiced s c t hA hV] at h
      simp only [hA, if_true] at h
      exact ih { s with speech_active := true,
                        pre_recording_buffer := s.pre_recording_buffer.push c,
                        audio_buffer := s.audio_buffer ++ [c],
                        last_speech_time := some t }
        rfl (hP.trans (List.prefix_append _ _)) evs h B d r hmem
    · by_cases hEnd : t - (s.last_speech_time).getD 0 ≥ s.max_silence_duration ∨
          t - (s.speech_start_time).getD 0 ≥ s.max_recording_duration
      · rw [step_active_end s c t hA hV hEnd] at h
        simp only [Bool.false_eq_true, if_false] at h
        by_cases hMin : t - (s.speech_start_time).getD 0 ≥ s.min_speech_duration
        · rw [if_pos hMin] at h
          obtain rfl : [VadEvent.speechEnd (s.audio_buffer ++ [c])
              (t - (s.speech_start_time).getD 0)
              (if t - (s.speech_start_time).getD 0 ≥ s.max_recording_duration then
                 EndReason.maxLength else EndReason.silence)] = evs :=
            Option.some_injective _ h
          simp only [List.mem_singleton, VadEvent.speechEnd.injEq] at hmem
          exact hmem.1 ▸ hP.trans (List.prefix_append _ _)
        · rw [if_neg hMin] at h
          obtain rfl : ([] : List VadEvent) = evs := Option.some_injective _ h
          simp at hmem
      · rw [step_active_silent s c t hA hV hEnd] at h
        simp only [hA, if_true] at h
        exact ih { s with speech_active := true,
                          pre_recording_buffer := s.pre_recording_buffer.push c,
                          audio_buffer := s.audio_buffer ++ [c] }
          rfl (hP.trans (List.prefix_append _ _)) evs h B d r hmem

/-- Enqueueing into an unbounded queue (`maxsize = 0`) always takes the plain
`put` path: every produced item is appended and nothing is dropped. -/
theorem foldl_put_unbounded (blocks : List Chunk) :
    ∀ q : PyQueue Chunk, q.maxsize = 0 →
      (blocks.foldl audio_callback_put q).items = q.items ++ blocks := by
  induction blocks with
  | nil => intro q _; simp
  | cons b bs ih =>
    intro q h
    have hput : audio_callback_put q b = { q with items := q.items ++ [b] } := by
      simp [audio_callback_put, PyQueue.isFull, h]
    rw [List.foldl_cons, hput, ih { q with items := q.items ++ [b] } h]
    simp

/-- The clamp `max (min (x * 5) 150) 15` always lands in `[15, 150]`. -/
theorem vad_clamp_mem (x : ℚ) :
    15 ≤ max (min (x * 5) 150) 15 ∧ max (min (x * 5) 150) 15 ≤ 150 :=
  ⟨le_max_right _ _, max_le (min_le_right _ _) (by norm_num)⟩

/-! ### Claim theorems

The rational arithmetic of `Batteries` is `@[irreducible]` by default; the
concrete evaluations below re-expose it locally so that `decide` can reduce. -/

section
attribute [local semireducible] Rat.add Rat.mul Rat.inv Rat.sub

/-- C1: the claim states that whenever the segmenter is `Active` and
`now - started_at ≥ max_recording_duration` the segment ends on that block
regardless of its amplitude.  The code checks the duration caps only in the
sub-threshold branch: from an `Active` state 9 s after `started_at`
(cap 8 s), a block with amplitude 1000 (above every threshold) leaves the
segmenter `Active` and fires nothing, while an identical state fed a quiet
block does end the segment with reason `max length`.  The amplitude decides,
contradicting the claimed unconditional cap. -/
theorem max_duration_cap_dead_while_voiced :
    activeState.speech_active = true ∧
    activeState.speech_start_time = some 0 ∧
    (9 : ℚ) - 0 ≥ activeState.max_recording_duration ∧
    amplitude_scaled chunkLoud > activeState.vad_threshold ∧
    (audio_processing_step activeState chunkLoud 9).1.speech_active = true ∧
    (audio_processing_step activeState chunkLoud 9).2 = [] ∧
    (audio_processing_step activeState chunkQuiet 9).2 =
      [VadEvent.speechEnd [chunkLoud, chunkQuiet] 9 EndReason.maxLength] := by
  decide

/-- C2: the audio hand-off queue is constructed as `queue.Queue()` with no
`maxsize`, which in Python means an unbounded queue.  Consequently every
produced block is retained in production order and the drop-oldest handler
(written for `queue.Full`) never executes: after any sequence of producer
callbacks with no consumption, the queue holds exactly all produced blocks,
so no fixed bound on its occupancy exists. -/
theorem audio_queue_unbounded_no_drop :
    audio_queue_init.maxsize = 0 ∧
    ∀ blocks : List Chunk,
      (blocks.foldl audio_callback_put audio_queue_init).items = blocks := by
  refine ⟨rfl, fun blocks => ?_⟩
  simpa using foldl_put_unbounded blocks audio_queue_init rfl

/-- C3: each processed chunk is appended to the pre-roll deque *before* the
VAD branch, so at an `Idle → Active` transition the triggering chunk is
already the tail of the pre-roll snapshot and is then appended once more:
from an `Idle` state with pre-roll `[[1], [2]]`, the loud trigger chunk
yields the segment buffer `[[1], [2], trigger, trigger]` — the trigger
block occurs twice, not exactly once as the claim states. -/
theorem trigger_chunk_duplicated :
    idleState.speech_active = false ∧
    amplitude_scaled chunkLoud > idleState.vad_threshold ∧
    idleState.pre_recording_buffer.data = [[1], [2]] ∧
    (audio_processing_step idleState chunkLoud 2).1.audio_buffer
      = [[1], [2], chunkLoud, chunkLoud] ∧
    List.count chunkLoud
      (audio_processing_step idleState chunkLoud 2).1.audio_buffer = 2 := by
  decide

/-- C4 counterexample: an amplitude sequence that rises above the start
threshold 50 and decays strictly monotonically, whose last voiced block is
at `t = 7.8`.  The sub-threshold block at `t = 8.3` has been below
`vad_threshold * 0.4` for only 0.5 s < `max_silence_duration = 1`, yet the
segmenter returns to `Idle` there because `8.3 ≥ max_recording_duration`:
the claim "never returns to Idle before amplitude has remained at or below
`vad_threshold * 0.4` for `max_silence_duration`" fails once the
total-duration cap can fire. -/
theorem hysteresis_early_idle_at_max_duration :
    amplitude_scaled [1967] > idleState.vad_threshold ∧
    strictlyDecreasing (decayInputs.map fun p => amplitude_scaled p.1) = true ∧
    (audio_processing_run idleState (decayInputs.take 5)).1.speech_active = true ∧
    ¬ amplitude_scaled [328] > idleState.vad_threshold * (2 / 5) ∧
    (83 : ℚ) / 10 - 39 / 5 < idleState.max_silence_duration ∧
    (audio_processing_run idleState decayInputs).1.speech_active = false := by
  decide

/-- C4 (amended): while `Active`, a block with amplitude above
`vad_threshold * 0.4` keeps the segment voiced — it is appended and resets
the silence clock — even when its amplitude is at or below `vad_threshold`;
and as long as neither `max_silence_duration` (since the last voiced block)
nor `max_recording_duration` (since the segment start) has elapsed, the
segmenter does not return to `Idle`, whatever the block's amplitude. -/
theorem hysteresis_keeps_segment_alive (s : ProcState) (c : Chunk) (t : ℚ) :
    (s.speech_active = true →
      amplitude_scaled c > s.vad_threshold * (2 / 5) →
        (audio_processing_step s c t).1.speech_active = true ∧
        (audio_processing_step s c t).1.audio_buffer = s.audio_buffer ++ [c] ∧
        (audio_processing_step s c t).1.last_speech_time = some t) ∧
    (s.speech_active = true →
      t - (s.last_speech_time).getD 0 < s.max_silence_duration →
      t - (s.speech_start_time).getD 0 < s.max_recording_duration →
        (audio_processing_step s c t).1.speech_active = true) := by
  constructor
  · intro hA hV
    rw [step_active_voiced s c t hA hV]
    exact ⟨hA, rfl, rfl⟩
  · intro hA hSil hTot
    by_cases hV : amplitude_scaled c > s.vad_threshold * (2 / 5)
    · rw [step_active_voiced s c t hA hV]
      exact hA
    · rw [step_active_silent s c t hA hV (by push_neg; exact ⟨hSil, hTot⟩)]
      exact hA

/-- C4 witness: a loud continuation block is appended and resets the
silence clock; a quiet block within both timing bounds leaves the segment
`Active`. -/
theorem hysteresis_keeps_segment_alive_witness :
    ((audio_processing_step activeState chunkLoud 7).1.speech_active = true ∧
     (audio_processing_step activeState chunkLoud 7).1.audio_buffer
       = activeState.audio_buffer ++ [chunkLoud] ∧
     (audio_processing_step activeState chunkLoud 7).1.last_speech_time = some 7) ∧
    (audio_processing_step activeState chunkQuiet 7).1.speech_active = true :=
  ⟨(hysteresis_keeps_segment_alive activeState chunkLoud 7).1 rfl (by decide),
   (hysteresis_keeps_segment_alive activeState chunkQuiet 7).2 rfl (by decide)
     (by decide)⟩

/-- C5: at an `Idle → Active` transition the segment buffer is seeded with
exactly the pre-roll window contents at that instant (the window already
containing the triggering chunk, which is appended once more behind it),
and whenever the segment later fires `on_speech_end` at its first return to
`Idle`, the delivered buffer still begins with that snapshot in its
original order. -/
theorem preroll_snapshot_delivered (s : ProcState) (c : Chunk) (t : ℚ)
    (inputs : List (Chunk × ℚ)) (evs : List VadEvent) (B : List Chunk)
    (d : ℚ) (r : EndReason)
    (hIdle : s.speech_active = false)
    (hAmp : amplitude_scaled c > s.vad_threshold) :
    (audio_processing_step s c t).1.audio_buffer
      = (s.pre_recording_buffer.push c).data ++ [c] ∧
    (first_deactivation_events (audio_processing_step s c t).1 inputs = some evs →
      VadEvent.speechEnd B d r ∈ evs →
      (s.pre_recording_buffer.push c).data <+: B) := by
  rw [step_idle_voiced s c t hIdle hAmp]
  refine ⟨rfl, fun h hmem => ?_⟩
  exact first_deactivation_events_prefix (s.pre_recording_buffer.push c).data
    inputs _ rfl (List.prefix_append _ _) evs h B d r hmem

/-- C5 witness: from `idleState`, the trigger at `t = 0` followed by two
quiet blocks ends the segment by silence at `t = 1.5`; the delivered buffer
begins with the pre-roll snapshot taken at the transition. -/
theorem preroll_snapshot_delivered_witness :
    (idleState.pre_recording_buffer.push chunkLoud).data
      <+: [[1], [2], chunkLoud, chunkLoud, [1], [1]] :=
  (preroll_snapshot_delivered idleState chunkLoud 0 [([1], 1 / 2), ([1], 3 / 2)]
      [VadEvent.speechEnd [[1], [2], chunkLoud, chunkLoud, [1], [1]] (3 / 2)
         EndReason.silence]
      [[1], [2], chunkLoud, chunkLoud, [1], [1]] (3 / 2) EndReason.silence
      rfl (by decide)).2 (by decide) (by decide)

/-- C6: when an `Active` segment ends (by the silence bound or the
total-duration bound) with `now - started_at < min_speech_duration`, no
callback fires — the segment is discarded silently; and in the fire and
discard cases alike the segmenter returns to `Idle` with an empty segment
buffer. -/
theorem short_segment_discarded_and_cleared (s : ProcState) (c : Chunk)
    (t t0 : ℚ)
    (hA : s.speech_active = true)
    (ht0 : s.speech_start_time = some t0)
    (hV : ¬ amplitude_scaled c > s.vad_threshold * (2 / 5))
    (hEnd : t - (s.last_speech_time).getD 0 ≥ s.max_silence_duration ∨
            t - t0 ≥ s.max_recording_duration) :
    (t - t0 < s.min_speech_duration → (audio_processing_step s c t).2 = []) ∧
    (audio_processing_step s c t).1.speech_active = false ∧
    (audio_processing_step s c t).1.audio_buffer = [] := by
  have hEnd' : t - (s.last_speech_time).getD 0 ≥ s.max_silence_duration ∨
      t - (s.speech_start_time).getD 0 ≥ s.max_recording_duration := by
    rw [ht0]
    simpa using hEnd
  rw [step_active_end s c t hA hV hEnd']
  refine ⟨fun hShort => ?_, rfl, rfl⟩
  rw [ht0]
  simp only [Option.getD_some]
  exact if_neg (not_le.mpr hShort)

/-- C6 witness: with `min_speech_duration` configured to 2 s, a spike
segment ending by silence at `t = 1.2` fires nothing and leaves the
segmenter `Idle` with an empty buffer. -/
theorem short_segment_discarded_and_cleared_witness :
    (audio_processing_step shortSpikeState chunkQuiet (6 / 5)).2 = [] ∧
    (audio_processing_step shortSpikeState chunkQuiet (6 / 5)).1.speech_active
      = false ∧
    (audio_processing_step shortSpikeState chunkQuiet (6 / 5)).1.audio_buffer
      = [] := by
  have h := short_segment_discarded_and_cleared shortSpikeState chunkQuiet
    (6 / 5) 0 rfl rfl (by decide) (Or.inl (by decide))
  exact ⟨h.1 (by decide), h.2.1, h.2.2⟩

/-- C7: on both calibration paths — explicit calibration from a nonempty
sample list (noise floor `np.mean`), and due auto-recalibration from a
sufficient history (noise floor `np.percentile(..., 25)` of the newest 50
entries) — the new threshold is `max(min(noise_floor * 5.0, 150.0), 15.0)`,
hence always within `[15, 150]`. -/
theorem vad_threshold_clamped_both_paths (s : CalibState)
    (amplitudes history : List ℚ) (now interval : ℚ) :
    (amplitudes ≠ [] →
      (calibrate_noise_floor s amplitudes now).noise_floor = npMean amplitudes ∧
      (calibrate_noise_floor s amplitudes now).vad_threshold
        = max (min (npMean amplitudes * 5) 150) 15 ∧
      15 ≤ (calibrate_noise_floor s amplitudes now).vad_threshold ∧
      (calibrate_noise_floor s amplitudes now).vad_threshold ≤ 150) ∧
    (recalibration_due s now interval = true → 50 ≤ history.length →
      (auto_recalibrate_if_needed s history now interval).noise_floor
        = npPercentile25 (takeLast 50 history) ∧
      (auto_recalibrate_if_needed s history now interval).vad_threshold
        = max (min (npPercentile25 (takeLast 50 history) * 5) 150) 15 ∧
      15 ≤ (auto_recalibrate_if_needed s history now interval).vad_threshold ∧
      (auto_recalibrate_if_needed s history now interval).vad_threshold ≤ 150) := by
  constructor
  · intro hne
    have hcal : calibrate_noise_floor s amplitudes now =
        { noise_floor := npMean amplitudes,
          vad_threshold := max (min (npMean amplitudes * 5) 150) 15,
          last_calibration := some now } := by
      simp [calibrate_noise_floor, hne]
    rw [hcal]
    exact ⟨rfl, rfl, (vad_clamp_mem _).1, (vad_clamp_mem _).2⟩
  · intro hdue hlen
    have hrec : auto_recalibrate_if_needed s history now interval =
        { noise_floor := npPercentile25 (takeLast 50 history),
          vad_threshold := max (min (npPercentile25 (takeLast 50 history) * 5) 150) 15,
          last_calibration := some now } := by
      simp [auto_recalibrate_if_needed, hdue, hlen]
    rw [hrec]
    exact ⟨rfl, rfl, (vad_clamp_mem _).1, (vad_clamp_mem _).2⟩

/-- C7 witness: the extreme noise floors `L = 0` (two zero samples) and
`L = 10000` (one sample) clamp to 15 and 150 respectively. -/
theorem vad_threshold_clamped_both_paths_witness :
    (calibrate_noise_floor calibInit [0, 0] 7).vad_threshold = 15 ∧
    (calibrate_noise_floor calibInit [10000] 7).vad_threshold = 150 := by
  have h0 := (vad_threshold_clamped_both_paths calibInit [0, 0] [] 7 300).1
    (by decide)
  have h1 := (vad_threshold_clamped_both_paths calibInit [10000] [] 7 300).1
    (by decide)
  refine ⟨?_, ?_⟩
  · rw [h0.2.1]; decide
  · rw [h1.2.1]; decide

/-- C8 counterexample: a full 100-entry history whose newest 50 entries are
all 1 and whose older 50 entries are all 0.  A due auto-recalibration sets
`noise_floor = 1` (the 25th percentile of `list(history)[-50:]`), whereas
the 25th percentile of the full retained history is 0: the code does not
use the full history as claimed. -/
theorem recalibration_not_full_history :
    calibInit.last_calibration = none ∧
    history100.length = 100 ∧
    (auto_recalibrate_if_needed calibInit history100 0 300).noise_floor = 1 ∧
    npPercentile25 history100 = 0 ∧
    (auto_recalibrate_if_needed calibInit history100 0 300).noise_floor ≠
      npPercentile25 history100 := by
  decide

/-- C8 (amended): whenever auto-recalibration runs (no prior calibration or
interval elapsed, and at least 50 history samples), the new `noise_floor`
is the 25th percentile of the *newest 50* entries of the retained history
(`list(self._amplitude_history)[-50:]`), and the calibration timestamp is
refreshed. -/
theorem recalibration_last50_percentile (s : CalibState) (history : List ℚ)
    (now interval : ℚ)
    (hdue : recalibration_due s now interval = true)
    (hlen : 50 ≤ history.length) :
    (auto_recalibrate_if_needed s history now interval).noise_floor
      = npPercentile25 (takeLast 50 history) ∧
    (auto_recalibrate_if_needed s history now interval).last_calibration
      = some now := by
  simp [auto_recalibrate_if_needed, hdue, hlen]

/-- C8 witness: the amended statement applied to the concrete 100-entry
history. -/
theorem recalibration_last50_percentile_witness :
    (auto_recalibrate_if_needed calibInit history100 0 300).noise_floor
      = npPercentile25 (takeLast 50 history100) ∧
    (auto_recalibrate_if_needed calibInit history100 0 300).last_calibration
      = some 0 :=
  recalibration_last50_percentile calibInit history100 0 300 rfl (by decide)

/-- C9: an explicit calibration pass that collected zero amplitude samples
leaves the calibration state — `noise_floor`, `vad_threshold` and
`last_calibration` — exactly as it was. -/
theorem calibrate_empty_retains_state (s : CalibState) (now : ℚ) :
    calibrate_noise_floor s [] now = s := by
  simp [calibrate_noise_floor]

/-- C10: `set_pre_recording_duration d` stores the clamped duration
`min(max(d, 0.1), 5.0)`, rebuilds the pre-roll deque with capacity
`⌊duration * sample_rate / chunk_size⌋` blocks, and the rebuilt deque is
empty — any previously buffered pre-roll audio is discarded. -/
theorem set_pre_recording_duration_clamps_and_rebuilds (s : PreRollConfig)
    (d : ℚ) :
    (set_pre_recording_duration s d).pre_recording_duration
      = min (max d (1 / 10)) 5 ∧
    (set_pre_recording_duration s d).pre_recording_buffer.maxlen
      = (⌊min (max d (1 / 10)) 5 * (s.sample_rate : ℚ) / (s.chunk_size : ℚ)⌋).toNat ∧
    (set_pre_recording_duration s d).pre_recording_buffer.data = [] := by
  have hcomm : max (1 / 10 : ℚ) (min d 5) = min (max d (1 / 10)) 5 := by
    rw [max_min_distrib_left, max_comm (1 / 10 : ℚ) d,
      max_eq_right (by norm_num : (1 / 10 : ℚ) ≤ 5)]
  have hpos : (0 : ℚ) ≤
      max (1 / 10) (min d 5) * (s.sample_rate : ℚ) / (s.chunk_size : ℚ) :=
    div_nonneg
      (mul_nonneg (le_trans (by norm_num) (le_max_left (1 / 10 : ℚ) (min d 5)))
        (Nat.cast_nonneg _))
      (Nat.cast_nonneg _)
  refine ⟨?_, ?_, rfl⟩
  · simpa [set_pre_recording_duration] using hcomm
  · simp only [set_pre_recording_duration, int_trunc]
    rw [if_pos hpos, hcomm]

end

end MicStreaming
